import Mathlib

/-!
Shallow embedding of `src/mps.py` (mauricio-zamora/parqueo): the MPS level
and chase planners, the MRP netting engine and the percentage-based
safety-stock helper. Quantities are modelled as rationals (`ℚ`), the
`math.ceil` calls as `Int.ceil`, and a Python `raise ValueError` as
`Except.error` carrying the source's message. Each period's table row is
a record; the pandas DataFrame rows become fields of those records.
-/

/-- A Python `raise` surfaces as `Except.error`; this tests for it. -/
def esError {α : Type} : Except String α → Bool
  | .error _ => true
  | .ok _ => false

/-- One period's row of an MPS table (`calcular_mps_nivelado`):
Inventario Inicial, Producción Bruta Requerida, Inventario Disponible,
Demanda, Inventario Final. -/
structure MPSRow where
  invInicial : ℚ
  produccionBruta : ℚ
  invDisponible : ℚ
  demanda : ℚ
  invFinal : ℚ
  deriving DecidableEq, Repr, Inhabited

/-- One period's row of the chase MPS table
(`calcular_mps_perseguidor_ss_variable`), which adds the
Stock Seguridad Periodo row. -/
structure MPSRowSS where
  invInicial : ℚ
  ssPeriodo : ℚ
  produccionBruta : ℚ
  invDisponible : ℚ
  demanda : ℚ
  invFinal : ℚ
  deriving DecidableEq, Repr, Inhabited

/-- One period's computed row of the MRP table (`calcular_mrp`):
Requerimientos Netos, Recepción de Pedidos Planificados, and the
Inventario Proyectado Disponible (PAB) at the end of the period.
(Requerimientos Brutos and Recepciones Programadas echo the inputs.) -/
structure MRPRow where
  neto : ℚ
  recepcion : ℚ
  pab : ℚ
  deriving DecidableEq, Repr, Inhabited

/-- Result of `calcular_mrp`: the per-period rows, and the
Lanzamiento Planificado de Pedidos series indexed by release period
(position `r - 1` holds period `r`). -/
structure MRPResult where
  filas : List MRPRow
  lanzamientos : List ℚ
  deriving DecidableEq, Repr, Inhabited

/-- `requerimiento_neto_total` of `calcular_mps_nivelado` (src/mps.py:37-39):
`max(0, sum(demanda) + stock_seguridad_final - inv_inicial)`. -/
def requerimientoNetoTotal (demanda : List ℚ) (inv_inicial stock_seguridad_final : ℚ) : ℚ :=
  max 0 (demanda.sum + stock_seguridad_final - inv_inicial)

/-- `produccion_necesaria_por_periodo` (src/mps.py:43): the total net
requirement divided by the number of periods, real-valued. -/
def produccionNecesariaPorPeriodo (demanda : List ℚ) (inv_inicial stock_seguridad_final : ℚ)
    (num_periodos : ℕ) : ℚ :=
  requerimientoNetoTotal demanda inv_inicial stock_seguridad_final / (num_periodos : ℚ)

/-- `produccion_bruta_por_periodo` (src/mps.py:48):
`math.ceil(produccion_necesaria_por_periodo / (1 - scrap_rate))`. -/
def produccionBrutaPorPeriodo (demanda : List ℚ) (inv_inicial stock_seguridad_final : ℚ)
    (num_periodos : ℕ) (scrap_rate : ℚ) : ℚ :=
  (⌈produccionNecesariaPorPeriodo demanda inv_inicial stock_seguridad_final num_periodos
      / (1 - scrap_rate)⌉ : ℤ)

/-- The period loop of `calcular_mps_nivelado` (src/mps.py:63-77): the same
gross production every period, inventory carried from period to period. -/
def mpsNiveladoLoop (demanda : List ℚ) (produccion_bruta : ℚ) :
    List ℕ → ℚ → List MPSRow
  | [], _ => []
  | p :: rest, inv_final_anterior =>
    let demanda_actual := demanda.getD (p - 1) 0
    let inv_disponible := inv_final_anterior + produccion_bruta
    let inv_final := inv_disponible - demanda_actual
    ⟨inv_final_anterior, produccion_bruta, inv_disponible, demanda_actual, inv_final⟩ ::
      mpsNiveladoLoop demanda produccion_bruta rest inv_final

/-- `calcular_mps_nivelado` (src/mps.py:16-79). `num_periodos ≤ 0` and
`1 - scrap_rate ≤ 0` raise before the table is built. -/
def calcular_mps_nivelado (demanda : List ℚ) (inv_inicial stock_seguridad_final scrap_rate : ℚ)
    (num_periodos : ℕ) : Except String (List MPSRow) :=
  if num_periodos = 0 then .error "El número de períodos debe ser positivo."
  else if 1 - scrap_rate ≤ 0 then .error "La tasa de scrap no puede ser 100% o más."
  else .ok (mpsNiveladoLoop demanda
      (produccionBrutaPorPeriodo demanda inv_inicial stock_seguridad_final num_periodos scrap_rate)
      (List.range' 1 num_periodos) inv_inicial)

/-- The period loop of `calcular_mps_perseguidor_ss_variable`
(src/mps.py:119-147). The scrap-rate check (src/mps.py:132-133) sits inside
the loop body, so it only fires when at least one period is processed. -/
def mpsPerseguidorLoop (demanda stocks_seguridad_periodo : List ℚ) (scrap_rate : ℚ) :
    List ℕ → ℚ → Except String (List MPSRowSS)
  | [], _ => .ok []
  | p :: rest, inv_final_anterior =>
    let demanda_actual := demanda.getD (p - 1) 0
    let ss_actual := stocks_seguridad_periodo.getD (p - 1) 0
    let produccion_necesaria_neta := max 0 (demanda_actual + ss_actual - inv_final_anterior)
    if 1 - scrap_rate ≤ 0 then .error "La tasa de scrap no puede ser 100% o más."
    else
      let produccion_bruta : ℚ := (⌈produccion_necesaria_neta / (1 - scrap_rate)⌉ : ℤ)
      let inv_disponible := inv_final_anterior + produccion_bruta
      let inv_final := inv_disponible - demanda_actual
      match mpsPerseguidorLoop demanda stocks_seguridad_periodo scrap_rate rest inv_final with
      | .error e => .error e
      | .ok rows =>
        .ok (⟨inv_final_anterior, ss_actual, produccion_bruta, inv_disponible,
              demanda_actual, inv_final⟩ :: rows)

/-- `calcular_mps_perseguidor_ss_variable` (src/mps.py:84-150): the
safety-stock length check (src/mps.py:106-107) runs first; the scrap check
happens per period inside the loop. -/
def calcular_mps_perseguidor_ss_variable (demanda : List ℚ) (inv_inicial : ℚ)
    (stocks_seguridad_periodo : List ℚ) (scrap_rate : ℚ) : Except String (List MPSRowSS) :=
  if stocks_seguridad_periodo.length ≠ demanda.length then
    .error "La longitud de stocks_seguridad_periodo debe coincidir con la demanda."
  else
    mpsPerseguidorLoop demanda stocks_seguridad_periodo scrap_rate
      (List.range' 1 demanda.length) inv_inicial

/-- The length adjustment of `calcular_mrp` (src/mps.py:189-192): when the
scheduled receipts' length differs from the number of periods, pad with
zeros and cut to exactly `num_periodos`. -/
def ajustarRecepciones (recepciones_programadas : List ℚ) (num_periodos : ℕ) : List ℚ :=
  if recepciones_programadas.length = num_periodos then recepciones_programadas
  else (recepciones_programadas ++ List.replicate num_periodos 0).take num_periodos

/-- The lot-sizing branch of `calcular_mrp` (src/mps.py:226-234): zero when
there is no net requirement; LFL takes `max(rn, lote_minimo)`; FOQ rounds up
to a multiple of `lote_minimo` and raises when `lote_minimo ≤ 0`; an unknown
policy string falls back to LFL. -/
def recepcionPlanificada (politica_lote : String) (lote_minimo : ℚ) (rn : ℚ) :
    Except String ℚ :=
  if 0 < rn then
    if politica_lote = "LFL" then .ok (max rn lote_minimo)
    else if politica_lote = "FOQ" then
      if lote_minimo ≤ 0 then .error "Lote Fijo (FOQ) debe ser mayor que 0"
      else .ok ((⌈rn / lote_minimo⌉ : ℤ) * lote_minimo)
    else .ok (max rn lote_minimo)
  else .ok 0

/-- The period loop of `calcular_mrp` (src/mps.py:210-248), over the list of
1-based period numbers. State: the previous period's PAB and the
accumulating release series (length `num_periodos`, position `r - 1` is
release period `r`). A release period outside `1..num_periodos` is dropped
(src/mps.py:238-244). -/
def mrpLoop (requerimientos_brutos recepciones : List ℚ) (stock_seguridad lote_minimo : ℚ)
    (politica_lote : String) (lead_time : ℤ) (num_periodos : ℕ) :
    List ℕ → ℚ → List ℚ → Except String (List MRPRow × List ℚ)
  | [], _, lanzamientos => .ok ([], lanzamientos)
  | t :: rest, pab_anterior, lanzamientos =>
    let rb_t := requerimientos_brutos.getD (t - 1) 0
    let rp_t := recepciones.getD (t - 1) 0
    let pab_antes := pab_anterior + rp_t
    let rn_t := max 0 (rb_t + stock_seguridad - pab_antes)
    match recepcionPlanificada politica_lote lote_minimo rn_t with
    | .error e => .error e
    | .ok rpp_t =>
      let periodo_lanzamiento : ℤ := (t : ℤ) - lead_time
      let lanzamientos' :=
        if 1 ≤ periodo_lanzamiento ∧ periodo_lanzamiento ≤ (num_periodos : ℤ) then
          lanzamientos.set (periodo_lanzamiento - 1).toNat
            (lanzamientos.getD (periodo_lanzamiento - 1).toNat 0 + rpp_t)
        else lanzamientos
      let pab_t := pab_antes - rb_t + rpp_t
      match mrpLoop requerimientos_brutos recepciones stock_seguridad lote_minimo
          politica_lote lead_time num_periodos rest pab_t lanzamientos' with
      | .error e => .error e
      | .ok (rows, lanzF) => .ok (⟨rn_t, rpp_t, pab_t⟩ :: rows, lanzF)

/-- `calcular_mrp` (src/mps.py:155-254): adjust the scheduled receipts to
the horizon length, then run the netting loop over periods `1..N` starting
from `PAB[0] = inv_inicial` and an all-zero release series. -/
def calcular_mrp (requerimientos_brutos : List ℚ) (inv_inicial stock_seguridad : ℚ)
    (recepciones_programadas : List ℚ) (lead_time : ℤ) (lote_minimo : ℚ)
    (politica_lote : String) : Except String MRPResult :=
  let num_periodos := requerimientos_brutos.length
  let recepciones := ajustarRecepciones recepciones_programadas num_periodos
  match mrpLoop requerimientos_brutos recepciones stock_seguridad lote_minimo politica_lote
      lead_time num_periodos (List.range' 1 num_periodos) inv_inicial
      (List.replicate num_periodos 0) with
  | .error e => .error e
  | .ok (rows, lanz) => .ok ⟨rows, lanz⟩

/-- The result of `calcular_stock_seguridad_porcentaje`: the `'periodo'`
branch returns a list of integers, the `'final'` and `'promedio'` branches
a single integer. -/
inductive SSResult where
  | lista : List ℤ → SSResult
  | escalar : ℤ → SSResult
  deriving DecidableEq, Repr

/-- `calcular_stock_seguridad_porcentaje` (src/mps.py:261-279). The
percentage bound is checked first; `tipo` then selects a per-period list,
the last period's value, or the mean, each rounded up with `math.ceil`. -/
def calcular_stock_seguridad_porcentaje (demanda : List ℚ) (porcentaje : ℚ) (tipo : String) :
    Except String SSResult :=
  if ¬ (0 ≤ porcentaje ∧ porcentaje ≤ 1) then .error "El porcentaje debe estar entre 0 y 1."
  else if tipo = "periodo" then
    .ok (.lista (demanda.map fun d => (⌈d * porcentaje⌉ : ℤ)))
  else if tipo = "final" then
    match demanda.getLast? with
    | none => .ok (.escalar 0)
    | some d => .ok (.escalar ⌈d * porcentaje⌉)
  else if tipo = "promedio" then
    if demanda.isEmpty then .ok (.escalar 0)
    else .ok (.escalar ⌈(demanda.sum / (demanda.length : ℚ)) * porcentaje⌉)
  else .error "Tipo de cálculo de SS no reconocido ('periodo', 'final', 'promedio')"

/-- The projected available balance when no planned order is ever received:
`pab[0] = pab0`, `pab[i+1] = pab[i] + sched[t0+i] - gross[t0+i]`. While the
MRP loop computes only zero net requirements, its PAB follows exactly this
recurrence (every planned receipt is zero). -/
def pabSinPedidos (rbs recs : List ℚ) (pab0 : ℚ) (t0 : ℕ) : ℕ → ℚ
  | 0 => pab0
  | i + 1 => pabSinPedidos rbs recs pab0 t0 i + recs.getD (t0 + i) 0 - rbs.getD (t0 + i) 0

set_option maxHeartbeats 1000000 in
theorem mrpLoop_ok_spec (rbs recs : List ℚ) (ss lote : ℚ) (pol : String) (lt : ℤ) (N : ℕ) :
    ∀ (k t0 : ℕ) (pab0 : ℚ) (lanz : List ℚ) (filas : List MRPRow) (lanzF : List ℚ),
      mrpLoop rbs recs ss lote pol lt N (List.range' (t0 + 1) k) pab0 lanz =
        .ok (filas, lanzF) →
      filas.length = k ∧
      ∀ i, i < k →
        (filas.getD i default).neto =
          max 0 (rbs.getD (t0 + i) 0 + ss -
            ((if i = 0 then pab0 else (filas.getD (i - 1) default).pab) +
              recs.getD (t0 + i) 0)) ∧
        recepcionPlanificada pol lote (filas.getD i default).neto =
          .ok (filas.getD i default).recepcion ∧
        (filas.getD i default).pab =
          (if i = 0 then pab0 else (filas.getD (i - 1) default).pab) + recs.getD (t0 + i) 0 -
            rbs.getD (t0 + i) 0 + (filas.getD i default).recepcion := by
  intro k
  induction k with
  | zero =>
    intro t0 pab0 lanz filas lanzF h
    simp only [List.range', mrpLoop, Except.ok.injEq, Prod.mk.injEq] at h
    obtain ⟨h1, _⟩ := h
    subst h1
    exact ⟨rfl, fun i hi => absurd hi (Nat.not_lt_zero i)⟩
  | succ k ih =>
    intro t0 pab0 lanz filas lanzF h
    rw [List.range'_succ] at h
    simp only [mrpLoop, Nat.add_sub_cancel] at h
    split at h
    · exact absurd h (by simp)
    rename_i rpp_t hrpp
    split at h
    · exact absurd h (by simp)
    rename_i rows par hrec
    simp only [Except.ok.injEq, Prod.mk.injEq] at h
    obtain ⟨h1, h2⟩ := h
    subst h1
    subst h2
    obtain ⟨hlen, hspec⟩ := ih _ _ _ _ _ hrec
    refine ⟨by simp [hlen], ?_⟩
    intro i hi
    cases i with
    | zero =>
      simp only [List.getD_cons_zero, if_pos rfl, Nat.add_zero]
      exact ⟨rfl, hrpp, rfl⟩
    | succ i =>
      have hs := hspec i (by omega)
      have harg : t0 + (i + 1) = t0 + 1 + i := by omega
      rw [harg]
      cases i with
      | zero =>
        simpa [List.getD_cons_succ, List.getD_cons_zero] using hs
      | succ j =>
        simpa [List.getD_cons_succ] using hs

theorem calcular_mrp_ok_loop (rbs srs : List ℚ) (inv ss : ℚ) (lt : ℤ) (lote : ℚ)
    (pol : String) (res : MRPResult)
    (hok : calcular_mrp rbs inv ss srs lt lote pol = .ok res) :
    mrpLoop rbs (ajustarRecepciones srs rbs.length) ss lote pol lt rbs.length
      (List.range' 1 rbs.length) inv (List.replicate rbs.length 0) =
      .ok (res.filas, res.lanzamientos) := by
  simp only [calcular_mrp] at hok
  split at hok
  · exact absurd hok (by simp)
  rename_i rows lanz heq
  simp only [Except.ok.injEq] at hok
  rw [heq, ← hok]

/-- C1: for every MRP input with aligned scheduled receipts and every period
`t` in `1..N`, the table of `calcular_mrp` satisfies the netting recurrence
`net[t] = max(0, gross[t] + safety_stock - (PAB[t-1] + sched[t]))` and
`PAB[t] = PAB[t-1] + sched[t] + planned_receipt[t] - gross[t]`, with
`PAB[0] = initial_inventory`. -/
theorem mrp_recurrencia_neteo (rbs srs : List ℚ) (inv ss : ℚ) (lt : ℤ) (lote : ℚ)
    (pol : String) (res : MRPResult)
    (hlen : srs.length = rbs.length)
    (hok : calcular_mrp rbs inv ss srs lt lote pol = .ok res) :
    ∀ t, 1 ≤ t → t ≤ rbs.length →
      (res.filas.getD (t - 1) default).neto =
        max 0 (rbs.getD (t - 1) 0 + ss -
          ((if t = 1 then inv else (res.filas.getD (t - 2) default).pab) +
            srs.getD (t - 1) 0)) ∧
      (res.filas.getD (t - 1) default).pab =
        (if t = 1 then inv else (res.filas.getD (t - 2) default).pab) +
          srs.getD (t - 1) 0 + (res.filas.getD (t - 1) default).recepcion -
          rbs.getD (t - 1) 0 := by
  intro t ht1 ht2
  have hadj : ajustarRecepciones srs rbs.length = srs := by
    simp [ajustarRecepciones, hlen]
  have hloop := calcular_mrp_ok_loop rbs srs inv ss lt lote pol res hok
  rw [hadj] at hloop
  obtain ⟨_, hspec⟩ :=
    mrpLoop_ok_spec rbs srs ss lote pol lt rbs.length rbs.length 0 inv _ _ _ hloop
  have hs := hspec (t - 1) (by omega)
  simp only [Nat.zero_add] at hs
  obtain ⟨hneto, _, hpab⟩ := hs
  have hif : (t - 1 = 0) ↔ (t = 1) := by omega
  have hidx : t - 1 - 1 = t - 2 := by omega
  rw [hidx, if_congr hif rfl rfl] at hneto hpab
  rw [sub_add_eq_add_sub] at hpab
  exact ⟨hneto, hpab⟩

theorem mrp_recurrencia_neteo_testigo :
    (([⟨100, 100, 100⟩, ⟨1200, 1200, 100⟩, ⟨900, 900, 100⟩, ⟨850, 850, 100⟩] :
        List MRPRow).getD (2 - 1) default).neto =
      max 0 (([800, 1200, 900, 1100] : List ℚ).getD (2 - 1) 0 + 100 -
        ((if 2 = 1 then (300 : ℚ)
          else (([⟨100, 100, 100⟩, ⟨1200, 1200, 100⟩, ⟨900, 900, 100⟩, ⟨850, 850, 100⟩] :
              List MRPRow).getD (2 - 2) default).pab) +
          ([500, 0, 0, 250] : List ℚ).getD (2 - 1) 0)) ∧
    (([⟨100, 100, 100⟩, ⟨1200, 1200, 100⟩, ⟨900, 900, 100⟩, ⟨850, 850, 100⟩] :
        List MRPRow).getD (2 - 1) default).pab =
      (if 2 = 1 then (300 : ℚ)
        else (([⟨100, 100, 100⟩, ⟨1200, 1200, 100⟩, ⟨900, 900, 100⟩, ⟨850, 850, 100⟩] :
            List MRPRow).getD (2 - 2) default).pab) +
        ([500, 0, 0, 250] : List ℚ).getD (2 - 1) 0 +
        (([⟨100, 100, 100⟩, ⟨1200, 1200, 100⟩, ⟨900, 900, 100⟩, ⟨850, 850, 100⟩] :
            List MRPRow).getD (2 - 1) default).recepcion -
        ([800, 1200, 900, 1100] : List ℚ).getD (2 - 1) 0 := by
  have hok : calcular_mrp [800, 1200, 900, 1100] 300 100 [500, 0, 0, 250] 1 1 "LFL" =
      .ok ⟨[⟨100, 100, 100⟩, ⟨1200, 1200, 100⟩, ⟨900, 900, 100⟩, ⟨850, 850, 100⟩],
           [1200, 900, 850, 0]⟩ := by
    norm_num [calcular_mrp, mrpLoop, recepcionPlanificada, ajustarRecepciones,
      List.range', max_def, Int.toNat, List.replicate, List.set]
  exact mrp_recurrencia_neteo [800, 1200, 900, 1100] [500, 0, 0, 250] 300 100 1 1 "LFL"
    ⟨[⟨100, 100, 100⟩, ⟨1200, 1200, 100⟩, ⟨900, 900, 100⟩, ⟨850, 850, 100⟩],
     [1200, 900, 850, 0]⟩ rfl hok 2 (by norm_num) (by norm_num)

/-- C2: on the MRP scenario (gross [800,1200,900,1100], initial inventory
300, safety stock 100, scheduled receipts [500,0,0,250], lead time 1,
lot-for-lot with minimum 1), `calcular_mrp` produces in period 1 a net
requirement of 100, a planned receipt of 100 whose implied release (period
0) is dropped, and PAB 100; in period 2 a net requirement of 1200, a
planned receipt of 1200 released in period 1, and PAB 100. The full table
and release series are as computed here. -/
theorem mrp_escenario_componente_c :
    calcular_mrp [800, 1200, 900, 1100] 300 100 [500, 0, 0, 250] 1 1 "LFL" =
      .ok ⟨[⟨100, 100, 100⟩, ⟨1200, 1200, 100⟩, ⟨900, 900, 100⟩, ⟨850, 850, 100⟩],
           [1200, 900, 850, 0]⟩ := by
  norm_num [calcular_mrp, mrpLoop, recepcionPlanificada, ajustarRecepciones,
    List.range', max_def, Int.toNat, List.replicate, List.set]

/-- C3: on the level-strategy scenario (demand [800,1000,700,700], initial
inventory 0, terminal safety stock 50, scrap rate 0.05, 4 periods),
`calcular_mps_nivelado` computes total net requirement 3250, real-valued
net per period 812.5, and gross production ceil(812.5/0.95) = 856 applied
identically to all 4 periods. -/
theorem mps_nivelado_escenario :
    requerimientoNetoTotal [800, 1000, 700, 700] 0 50 = 3250 ∧
    produccionNecesariaPorPeriodo [800, 1000, 700, 700] 0 50 4 = 812.5 ∧
    produccionBrutaPorPeriodo [800, 1000, 700, 700] 0 50 4 0.05 = 856 ∧
    calcular_mps_nivelado [800, 1000, 700, 700] 0 50 0.05 4 =
      .ok [⟨0, 856, 856, 800, 56⟩, ⟨56, 856, 912, 1000, -88⟩,
           ⟨-88, 856, 768, 700, 68⟩, ⟨68, 856, 924, 700, 224⟩] := by
  have hbruta : produccionBrutaPorPeriodo [800, 1000, 700, 700] 0 50 4 0.05 = 856 := by
    have h : (⌈produccionNecesariaPorPeriodo [800, 1000, 700, 700] 0 50 4 / (1 - 0.05)⌉ : ℤ)
        = 856 := by
      rw [Int.ceil_eq_iff]
      norm_num [produccionNecesariaPorPeriodo, requerimientoNetoTotal]
    rw [produccionBrutaPorPeriodo, h]
    norm_num
  refine ⟨by norm_num [requerimientoNetoTotal],
    by norm_num [produccionNecesariaPorPeriodo, requerimientoNetoTotal], hbruta, ?_⟩
  simp only [calcular_mps_nivelado]
  rw [hbruta]
  norm_num [mpsNiveladoLoop, List.range']

theorem mpsPerseguidorLoop_error (demanda ssp : List ℚ) (scrap : ℚ) :
    ∀ (ps : List ℕ) (inv : ℚ),
      esError (mpsPerseguidorLoop demanda ssp scrap ps inv) = true ↔
      (1 - scrap ≤ 0 ∧ ps ≠ []) := by
  intro ps
  induction ps with
  | nil => intro inv; simp [mpsPerseguidorLoop, esError]
  | cons p rest ih =>
    intro inv
    simp only [mpsPerseguidorLoop]
    by_cases hs : 1 - scrap ≤ 0
    · simp [hs, esError]
    · rw [if_neg hs]
      split
      · rename_i e heq
        exact absurd ((ih _).mp (by rw [heq]; rfl)).1 hs
      · rename_i rows heq
        simp [esError, hs]

/-- C4 counterexample: with empty demand, an equally empty safety-stock
sequence and scrap rate 2 (≥ 1), `calcular_mps_perseguidor_ss_variable`
returns an empty table instead of raising: the scrap-rate check lives
inside the period loop and never runs on an empty horizon, refuting the
claimed "raises if and only if" characterization. -/
theorem perseguidor_error_cex :
    (1 : ℚ) ≤ 2 ∧
    calcular_mps_perseguidor_ss_variable [] 0 [] 2 = .ok [] := by
  refine ⟨by norm_num, ?_⟩
  norm_num [calcular_mps_perseguidor_ss_variable, mpsPerseguidorLoop, List.range']

/-- C4 (amended): `calcular_mps_perseguidor_ss_variable` raises if and only
if the safety-stock sequence length differs from the demand length, or the
scrap rate is ≥ 1 AND the demand is nonempty (the scrap check sits inside
the period loop, so an empty horizon never triggers it). -/
theorem perseguidor_error_iff (demanda : List ℚ) (inv : ℚ) (ssp : List ℚ) (scrap : ℚ) :
    esError (calcular_mps_perseguidor_ss_variable demanda inv ssp scrap) = true ↔
    (ssp.length ≠ demanda.length ∨ (1 - scrap ≤ 0 ∧ demanda ≠ [])) := by
  simp only [calcular_mps_perseguidor_ss_variable]
  by_cases hl : ssp.length ≠ demanda.length
  · rw [if_pos hl]
    simp [esError, hl]
  · rw [if_neg hl]
    rw [mpsPerseguidorLoop_error]
    simp only [hl, false_or]
    constructor
    · rintro ⟨h1, h2⟩
      refine ⟨h1, ?_⟩
      intro hd
      exact h2 (by simp [hd])
    · rintro ⟨h1, h2⟩
      refine ⟨h1, ?_⟩
      intro hr
      rw [List.range'_eq_nil] at hr
      exact h2 (List.length_eq_zero.mp hr)

/-- C9: for a percentage in [0,1], the per-period safety-stock calculation
returns a list of the demand's length whose element `t` is
`ceil(demand[t] * p)`; for a percentage outside [0,1] it raises. -/
theorem stock_seguridad_periodo_spec (demanda : List ℚ) (p : ℚ) :
    (0 ≤ p → p ≤ 1 →
      ∃ l : List ℤ,
        calcular_stock_seguridad_porcentaje demanda p "periodo" = .ok (.lista l) ∧
        l.length = demanda.length ∧
        ∀ t, t < demanda.length → l.getD t 0 = ⌈demanda.getD t 0 * p⌉) ∧
    (¬ (0 ≤ p ∧ p ≤ 1) →
      esError (calcular_stock_seguridad_porcentaje demanda p "periodo") = true) := by
  constructor
  · intro h0 h1
    refine ⟨demanda.map fun d => ⌈d * p⌉, ?_, by simp, ?_⟩
    · simp [calcular_stock_seguridad_porcentaje, h0, h1]
    · intro t ht
      rw [List.getD_eq_getElem _ _ (by simpa using ht), List.getD_eq_getElem _ _ ht,
        List.getElem_map]
  · intro hnot
    simp [calcular_stock_seguridad_porcentaje, hnot, esError]

theorem pabSinPedidos_shift (rbs recs : List ℚ) (pab0 : ℚ) (t0 : ℕ) :
    ∀ i, pabSinPedidos rbs recs (pab0 + recs.getD t0 0 - rbs.getD t0 0) (t0 + 1) i =
      pabSinPedidos rbs recs pab0 t0 (i + 1) := by
  intro i
  induction i with
  | zero => simp [pabSinPedidos]
  | succ i ih =>
    have harg : t0 + 1 + i = t0 + (i + 1) := by omega
    simp only [pabSinPedidos, ih, harg]

theorem esError_mrp_cons (x : Except String (List MRPRow × List ℚ)) (row : MRPRow) :
    esError (match x with
      | .error e => (.error e : Except String (List MRPRow × List ℚ))
      | .ok (rows, lanzF) => .ok (row :: rows, lanzF)) = esError x := by
  rcases x with e | ⟨rows, lanzF⟩ <;> rfl

theorem mrpLoop_foq_error (rbs recs : List ℚ) (ss lote : ℚ) (lt : ℤ) (N : ℕ)
    (hlote : lote ≤ 0) :
    ∀ (k t0 : ℕ) (pab0 : ℚ) (lanz : List ℚ),
      esError (mrpLoop rbs recs ss lote "FOQ" lt N (List.range' (t0 + 1) k) pab0 lanz) =
        true ↔
      ∃ i, i < k ∧
        0 < rbs.getD (t0 + i) 0 + ss -
          (pabSinPedidos rbs recs pab0 t0 i + recs.getD (t0 + i) 0) := by
  intro k
  induction k with
  | zero =>
    intro t0 pab0 lanz
    simp [List.range', mrpLoop, esError]
  | succ k ih =>
    intro t0 pab0 lanz
    rw [List.range'_succ]
    simp only [mrpLoop, Nat.add_sub_cancel]
    by_cases hpos : 0 < rbs.getD t0 0 + ss - (pab0 + recs.getD t0 0)
    · have hrpp : recepcionPlanificada "FOQ" lote
          (max 0 (rbs.getD t0 0 + ss - (pab0 + recs.getD t0 0))) =
          .error "Lote Fijo (FOQ) debe ser mayor que 0" := by
        simp only [recepcionPlanificada]
        rw [if_pos (lt_max_iff.mpr (Or.inr hpos))]
        simp [hlote]
      simp only [hrpp, esError, true_iff]
      exact ⟨0, by omega, by simpa [pabSinPedidos] using hpos⟩
    · have hrn : max 0 (rbs.getD t0 0 + ss - (pab0 + recs.getD t0 0)) = 0 :=
        max_eq_left (not_lt.mp hpos)
      have hrpp : recepcionPlanificada "FOQ" lote
          (max 0 (rbs.getD t0 0 + ss - (pab0 + recs.getD t0 0))) = .ok 0 := by
        simp only [recepcionPlanificada, hrn]
        norm_num
      simp only [hrpp]
      rw [esError_mrp_cons, ih]
      constructor
      · rintro ⟨i, hik, hi⟩
        refine ⟨i + 1, by omega, ?_⟩
        simp only [add_zero] at hi
        rw [pabSinPedidos_shift] at hi
        have harg : t0 + 1 + i = t0 + (i + 1) := by omega
        rw [harg] at hi
        exact hi
      · rintro ⟨i, hik, hi⟩
        match i with
        | 0 => exact absurd (by simpa [pabSinPedidos] using hi) hpos
        | j + 1 =>
          refine ⟨j, by omega, ?_⟩
          simp only [add_zero]
          rw [pabSinPedidos_shift]
          have harg : t0 + 1 + j = t0 + (j + 1) := by omega
          rw [harg]
          exact hi

theorem esError_mrp_result (x : Except String (List MRPRow × List ℚ)) :
    esError (match x with
      | .error e => (.error e : Except String MRPResult)
      | .ok (rows, lanz) => .ok ⟨rows, lanz⟩) = esError x := by
  rcases x with e | ⟨rows, lanz⟩ <;> rfl

/-- C5 counterexample: with the FOQ policy and lot size 0 (≤ 0) but no
shortfall in any period, `calcular_mrp` succeeds: the lot-size check sits
inside the period loop behind `net_requirement > 0` and is never reached,
refuting the claim that every FOQ input with lot size ≤ 0 fails, validated
before any computation. -/
theorem mrp_foq_validacion_cex :
    (0 : ℚ) ≤ 0 ∧
    calcular_mrp [0] 0 0 [0] 1 0 "FOQ" = .ok ⟨[⟨0, 0, 0⟩], [0]⟩ := by
  refine ⟨le_refl 0, ?_⟩
  norm_num [calcular_mrp, mrpLoop, recepcionPlanificada, ajustarRecepciones,
    List.range', max_def, List.replicate]

/-- C5 (amended): with the FOQ policy and lot size ≤ 0, `calcular_mrp`
raises if and only if some period's net requirement becomes positive during
the scan (equivalently: the no-orders projected balance falls short
somewhere); when it raises no table is returned, and otherwise the call
succeeds. The check happens inside the loop, not before computation. -/
theorem mrp_foq_error_iff (rbs srs : List ℚ) (inv ss : ℚ) (lt : ℤ) (lote : ℚ)
    (hlote : lote ≤ 0) :
    esError (calcular_mrp rbs inv ss srs lt lote "FOQ") = true ↔
    ∃ i, i < rbs.length ∧
      0 < rbs.getD i 0 + ss -
        (pabSinPedidos rbs (ajustarRecepciones srs rbs.length) inv 0 i +
          (ajustarRecepciones srs rbs.length).getD i 0) := by
  simp only [calcular_mrp]
  rw [esError_mrp_result]
  have h := mrpLoop_foq_error rbs (ajustarRecepciones srs rbs.length) ss lote lt
    rbs.length hlote rbs.length 0 inv (List.replicate rbs.length 0)
  simpa using h

theorem mrp_foq_error_iff_testigo :
    esError (calcular_mrp [5] 0 0 [] 1 0 "FOQ") = true :=
  (mrp_foq_error_iff [5] [] 0 0 1 0 (le_refl 0)).mpr
    ⟨0, by norm_num, by norm_num [pabSinPedidos, ajustarRecepciones]⟩

theorem ajustarRecepciones_length (srs : List ℚ) (N : ℕ) :
    (ajustarRecepciones srs N).length = N := by
  unfold ajustarRecepciones
  split
  · assumption
  · simp

/-- C8 counterexample: a scheduled-receipts list shorter than the horizon
combined with FOQ lot size 0 and a positive gross requirement makes
`calcular_mrp` raise, refuting "does not fail" for every length-mismatched
input (the mismatch itself is not what fails, see the amended claim). -/
theorem mrp_recepciones_longitud_cex :
    ([] : List ℚ).length ≠ ([1] : List ℚ).length ∧
    esError (calcular_mrp [1] 0 0 [] 0 0 "FOQ") = true := by
  refine ⟨by norm_num, ?_⟩
  have hFL : (("FOQ" : String) = "LFL") = False := by simp
  norm_num [hFL, calcular_mrp, mrpLoop, recepcionPlanificada, ajustarRecepciones,
    List.range', max_def, esError, List.replicate]

/-- C8 (amended): when the scheduled-receipts length differs from the number
of periods, `calcular_mrp` behaves exactly as if called with the receipts
zero-padded/truncated to that length: same table or same error; the
mismatch itself never causes a failure. -/
theorem mrp_recepciones_longitud_eq (rbs srs : List ℚ) (inv ss : ℚ) (lt : ℤ)
    (lote : ℚ) (pol : String) (h : srs.length ≠ rbs.length) :
    calcular_mrp rbs inv ss srs lt lote pol =
      calcular_mrp rbs inv ss (ajustarRecepciones srs rbs.length) lt lote pol := by
  have hidem : ajustarRecepciones (ajustarRecepciones srs rbs.length) rbs.length =
      ajustarRecepciones srs rbs.length := by
    rw [ajustarRecepciones]
    rw [if_pos (ajustarRecepciones_length srs rbs.length)]
  simp only [calcular_mrp, hidem]

theorem mrp_recepciones_longitud_testigo :
    calcular_mrp [5, 5] 0 0 [7] 1 1 "LFL" =
      calcular_mrp [5, 5] 0 0 (ajustarRecepciones [7] 2) 1 1 "LFL" :=
  mrp_recepciones_longitud_eq [5, 5] [7] 0 0 1 1 "LFL" (by norm_num)

theorem sum_set_getD_add (l : List ℚ) (m : ℕ) (x : ℚ) (hm : m < l.length) :
    (l.set m (l.getD m 0 + x)).sum = l.sum + x := by
  rw [List.sum_set', dif_pos hm, List.getD_eq_getElem l 0 hm]
  ring

theorem mrpLoop_lanz_sum (rbs recs : List ℚ) (ss lote : ℚ) (pol : String) (lt : ℤ)
    (N : ℕ) :
    ∀ (k t0 : ℕ) (pab0 : ℚ) (lanz : List ℚ) (filas : List MRPRow) (lanzF : List ℚ),
      lanz.length = N →
      ((t0 : ℤ) + k - lt ≤ N) →
      mrpLoop rbs recs ss lote pol lt N (List.range' (t0 + 1) k) pab0 lanz =
        .ok (filas, lanzF) →
      lanzF.sum = lanz.sum +
        ∑ i ∈ Finset.range k,
          (if 1 ≤ (t0 : ℤ) + 1 + i - lt then (filas.getD i default).recepcion else 0) := by
  intro k
  induction k with
  | zero =>
    intro t0 pab0 lanz filas lanzF hlen hbound h
    simp only [List.range', mrpLoop, Except.ok.injEq, Prod.mk.injEq] at h
    rw [← h.2]
    simp
  | succ k ih =>
    intro t0 pab0 lanz filas lanzF hlen hbound h
    rw [List.range'_succ] at h
    simp only [mrpLoop, Nat.add_sub_cancel] at h
    split at h
    · exact absurd h (by simp)
    rename_i rpp_t hrpp
    split at h
    · exact absurd h (by simp)
    rename_i rows par hrec
    simp only [Except.ok.injEq, Prod.mk.injEq] at h
    obtain ⟨h1, h2⟩ := h
    obtain ⟨row, rest, hf, hrr, hrest⟩ :
        ∃ row rest, filas = row :: rest ∧ row.recepcion = rpp_t ∧ rest = rows :=
      ⟨_, _, h1.symm, rfl, rfl⟩
    subst hf
    subst hrest
    subst h2
    rw [Finset.sum_range_succ']
    simp only [List.getD_cons_succ, List.getD_cons_zero, Nat.cast_zero, add_zero,
      Nat.cast_add, Nat.cast_one, hrr]
    have hcond : ∀ i : ℕ,
        (if 1 ≤ ((t0 + 1 : ℕ) : ℤ) + 1 + (i : ℤ) - lt
          then (rest.getD i default).recepcion else 0) =
        (if 1 ≤ (t0 : ℤ) + 1 + ((i : ℤ) + 1) - lt
          then (rest.getD i default).recepcion else 0) :=
      fun i => if_congr (by omega) rfl rfl
    by_cases hrel : 1 ≤ ((t0 + 1 : ℕ) : ℤ) - lt ∧ ((t0 + 1 : ℕ) : ℤ) - lt ≤ (N : ℤ)
    · rw [if_pos hrel] at hrec
      have hmlt : ((((t0 + 1 : ℕ) : ℤ)) - lt - 1).toNat < lanz.length := by
        rw [hlen]; omega
      have hlen' : (lanz.set ((((t0 + 1 : ℕ) : ℤ)) - lt - 1).toNat
          (lanz.getD (((((t0 + 1 : ℕ) : ℤ)) - lt - 1)).toNat 0 + rpp_t)).length = N := by
        simp [hlen]
      have hbound' : (((t0 + 1 : ℕ) : ℤ)) + k - lt ≤ N := by push_cast at hbound ⊢; omega
      have hs := ih (t0 + 1) _ _ rest par hlen' hbound' hrec
      simp only [hcond] at hs
      rw [hs, sum_set_getD_add lanz _ rpp_t hmlt,
        if_pos (show (1 : ℤ) ≤ (t0 : ℤ) + 1 - lt by omega)]
      ring
    · rw [if_neg hrel] at hrec
      have hbound' : (((t0 + 1 : ℕ) : ℤ)) + k - lt ≤ N := by push_cast at hbound ⊢; omega
      have hs := ih (t0 + 1) _ _ rest par hlen hbound' hrec
      simp only [hcond] at hs
      rw [hs, if_neg (show ¬ (1 : ℤ) ≤ (t0 : ℤ) + 1 - lt by push_cast at hbound; omega)]
      ring

/-- C6: with lead_time ≥ 0, the sum of planned order receipts over the
periods whose implied release `t - lead_time` is ≥ 1 equals the sum of the
planned order release series; receipts whose implied release falls before
period 1 are dropped from both sides. -/
theorem mrp_conservacion_lead_time (rbs srs : List ℚ) (inv ss : ℚ) (lt : ℤ) (lote : ℚ)
    (pol : String) (res : MRPResult) (hlt : 0 ≤ lt)
    (hok : calcular_mrp rbs inv ss srs lt lote pol = .ok res) :
    (∑ t ∈ Finset.range rbs.length,
      (if 1 ≤ ((t : ℤ) + 1) - lt then (res.filas.getD t default).recepcion else 0)) =
    res.lanzamientos.sum := by
  have hloop := calcular_mrp_ok_loop rbs srs inv ss lt lote pol res hok
  have hs := mrpLoop_lanz_sum rbs (ajustarRecepciones srs rbs.length) ss lote pol lt
    rbs.length rbs.length 0 inv (List.replicate rbs.length 0) res.filas res.lanzamientos
    (by simp) (by push_cast; omega) hloop
  have hcond : ∀ i : ℕ,
      (if 1 ≤ ((0 : ℕ) : ℤ) + 1 + (i : ℤ) - lt
        then (res.filas.getD i default).recepcion else 0) =
      (if 1 ≤ ((i : ℤ) + 1) - lt
        then (res.filas.getD i default).recepcion else 0) :=
    fun i => if_congr (by omega) rfl rfl
  rw [hs]
  simp only [hcond]
  rw [List.sum_replicate]
  simp

theorem mrp_conservacion_lead_time_testigo :
    (∑ t ∈ Finset.range (([800, 1200, 900, 1100] : List ℚ)).length,
      (if 1 ≤ ((t : ℤ) + 1) - 1 then
        (((⟨[⟨100, 100, 100⟩, ⟨1200, 1200, 100⟩, ⟨900, 900, 100⟩, ⟨850, 850, 100⟩],
            [1200, 900, 850, 0]⟩ : MRPResult)).filas.getD t default).recepcion else 0)) =
    ((⟨[⟨100, 100, 100⟩, ⟨1200, 1200, 100⟩, ⟨900, 900, 100⟩, ⟨850, 850, 100⟩],
        [1200, 900, 850, 0]⟩ : MRPResult)).lanzamientos.sum := by
  have hok : calcular_mrp [800, 1200, 900, 1100] 300 100 [500, 0, 0, 250] 1 1 "LFL" =
      .ok ⟨[⟨100, 100, 100⟩, ⟨1200, 1200, 100⟩, ⟨900, 900, 100⟩, ⟨850, 850, 100⟩],
           [1200, 900, 850, 0]⟩ := by
    norm_num [calcular_mrp, mrpLoop, recepcionPlanificada, ajustarRecepciones,
      List.range', max_def, Int.toNat, List.replicate, List.set]
  exact mrp_conservacion_lead_time [800, 1200, 900, 1100] [500, 0, 0, 250] 300 100 1 1
    "LFL" _ (by norm_num) hok

/-- C7: under FOQ with positive lot size, every planned order receipt is 0
exactly when the period's net requirement is 0, and otherwise equals
`ceil(net / lot) * lot`, an exact integer multiple of the lot size. -/
theorem mrp_foq_multiplo_lote (rbs srs : List ℚ) (inv ss : ℚ) (lt : ℤ) (lote : ℚ)
    (res : MRPResult) (hlote : 0 < lote)
    (hok : calcular_mrp rbs inv ss srs lt lote "FOQ" = .ok res) :
    ∀ t, t < rbs.length →
      ((res.filas.getD t default).neto = 0 ∧ (res.filas.getD t default).recepcion = 0) ∨
      ((res.filas.getD t default).recepcion =
          ((⌈(res.filas.getD t default).neto / lote⌉ : ℤ) : ℚ) * lote ∧
        ∃ m : ℤ, (res.filas.getD t default).recepcion = (m : ℚ) * lote) := by
  intro t ht
  have hloop := calcular_mrp_ok_loop rbs srs inv ss lt lote "FOQ" res hok
  obtain ⟨_, hspec⟩ :=
    mrpLoop_ok_spec rbs _ ss lote "FOQ" lt rbs.length rbs.length 0 inv _ _ _ hloop
  obtain ⟨hneto, hrpp, _⟩ := hspec t ht
  have hge : 0 ≤ (res.filas.getD t default).neto := by rw [hneto]; exact le_max_left 0 _
  by_cases hz : (res.filas.getD t default).neto = 0
  · left
    refine ⟨hz, ?_⟩
    rw [hz] at hrpp
    rw [recepcionPlanificada, if_neg (lt_irrefl (0 : ℚ))] at hrpp
    simp only [Except.ok.injEq] at hrpp
    exact hrpp.symm
  · right
    have hp : 0 < (res.filas.getD t default).neto := lt_of_le_of_ne hge (Ne.symm hz)
    rw [recepcionPlanificada, if_pos hp,
      if_neg (by decide : ¬("FOQ" : String) = "LFL"), if_pos rfl,
      if_neg (not_le.mpr hlote)] at hrpp
    simp only [Except.ok.injEq] at hrpp
    exact ⟨hrpp.symm, ⟨⌈(res.filas.getD t default).neto / lote⌉, hrpp.symm⟩⟩

theorem getD_set_self (l : List ℚ) (m : ℕ) (v : ℚ) (hm : m < l.length) :
    (l.set m v).getD m 0 = v := by
  simp [List.getD, List.getElem?_set, hm]

theorem getD_set_ne (l : List ℚ) (m j : ℕ) (v : ℚ) (hne : m ≠ j) :
    (l.set m v).getD j 0 = l.getD j 0 := by
  simp [List.getD, List.getElem?_set, hne]

theorem mrpLoop_lanz_getD (rbs recs : List ℚ) (ss lote : ℚ) (pol : String) (lt : ℤ)
    (N : ℕ) (hlt : 0 ≤ lt) :
    ∀ (k t0 : ℕ) (pab0 : ℚ) (lanz : List ℚ) (filas : List MRPRow) (lanzF : List ℚ),
      lanz.length = N →
      mrpLoop rbs recs ss lote pol lt N (List.range' (t0 + 1) k) pab0 lanz =
        .ok (filas, lanzF) →
      ∀ j, j < N →
        lanzF.getD j 0 =
          if t0 + 1 ≤ j + 1 + lt.toNat ∧ j + 1 + lt.toNat ≤ t0 + k then
            lanz.getD j 0 + (filas.getD (j + lt.toNat - t0) default).recepcion
          else lanz.getD j 0 := by
  intro k
  induction k with
  | zero =>
    intro t0 pab0 lanz filas lanzF hlen h j hjN
    simp only [List.range', mrpLoop, Except.ok.injEq, Prod.mk.injEq] at h
    have hC0 : ¬ (t0 + 1 ≤ j + 1 + lt.toNat ∧ j + 1 + lt.toNat ≤ t0 + 0) := by omega
    rw [if_neg hC0, ← h.2]
  | succ k ih =>
    intro t0 pab0 lanz filas lanzF hlen h j hjN
    rw [List.range'_succ] at h
    simp only [mrpLoop, Nat.add_sub_cancel] at h
    split at h
    · exact absurd h (by simp)
    rename_i rpp_t hrpp
    split at h
    · exact absurd h (by simp)
    rename_i rows par hrec
    simp only [Except.ok.injEq, Prod.mk.injEq] at h
    obtain ⟨h1, h2⟩ := h
    obtain ⟨row, rest, hf, hrr, hrest⟩ :
        ∃ row rest, filas = row :: rest ∧ row.recepcion = rpp_t ∧ rest = rows :=
      ⟨_, _, h1.symm, rfl, rfl⟩
    subst hf
    subst hrest
    subst h2
    by_cases hrel : 1 ≤ ((t0 + 1 : ℕ) : ℤ) - lt ∧ ((t0 + 1 : ℕ) : ℤ) - lt ≤ (N : ℤ)
    · rw [if_pos hrel] at hrec
      have hlen' : (lanz.set ((((t0 + 1 : ℕ) : ℤ)) - lt - 1).toNat
          (lanz.getD (((((t0 + 1 : ℕ) : ℤ)) - lt - 1)).toNat 0 + rpp_t)).length = N := by
        simp [hlen]
      have hIHj := ih (t0 + 1) _ _ rest par hlen' hrec j hjN
      by_cases hidx : j + lt.toNat = t0
      · have hC'no : ¬ (t0 + 1 + 1 ≤ j + 1 + lt.toNat ∧ j + 1 + lt.toNat ≤ t0 + 1 + k) := by
          omega
        rw [if_neg hC'no] at hIHj
        have hMj : ((((t0 + 1 : ℕ) : ℤ)) - lt - 1).toNat = j := by omega
        rw [hMj, getD_set_self lanz j _ (by rw [hlen]; exact hjN)] at hIHj
        have hC : t0 + 1 ≤ j + 1 + lt.toNat ∧ j + 1 + lt.toNat ≤ t0 + (k + 1) := by omega
        rw [if_pos hC]
        have hz : j + lt.toNat - t0 = 0 := by omega
        rw [hz, List.getD_cons_zero, hrr]
        exact hIHj
      · have hMne : ((((t0 + 1 : ℕ) : ℤ)) - lt - 1).toNat ≠ j := by omega
        rw [getD_set_ne lanz _ j _ hMne] at hIHj
        by_cases hC : t0 + 1 ≤ j + 1 + lt.toNat ∧ j + 1 + lt.toNat ≤ t0 + (k + 1)
        · have hC' : t0 + 1 + 1 ≤ j + 1 + lt.toNat ∧ j + 1 + lt.toNat ≤ t0 + 1 + k := by
            omega
          rw [if_pos hC'] at hIHj
          rw [if_pos hC]
          have hgt : j + lt.toNat - t0 = (j + lt.toNat - (t0 + 1)) + 1 := by omega
          rw [hgt, List.getD_cons_succ]
          exact hIHj
        · have hC'no : ¬ (t0 + 1 + 1 ≤ j + 1 + lt.toNat ∧ j + 1 + lt.toNat ≤ t0 + 1 + k) := by
            omega
          rw [if_neg hC'no] at hIHj
          rw [if_neg hC]
          exact hIHj
    · rw [if_neg hrel] at hrec
      have hIHj := ih (t0 + 1) _ _ rest par hlen hrec j hjN
      have hidx : j + lt.toNat ≠ t0 := by omega
      by_cases hC : t0 + 1 ≤ j + 1 + lt.toNat ∧ j + 1 + lt.toNat ≤ t0 + (k + 1)
      · have hC' : t0 + 1 + 1 ≤ j + 1 + lt.toNat ∧ j + 1 + lt.toNat ≤ t0 + 1 + k := by
          omega
        rw [if_pos hC'] at hIHj
        rw [if_pos hC]
        have hgt : j + lt.toNat - t0 = (j + lt.toNat - (t0 + 1)) + 1 := by omega
        rw [hgt, List.getD_cons_succ]
        exact hIHj
      · have hC'no : ¬ (t0 + 1 + 1 ≤ j + 1 + lt.toNat ∧ j + 1 + lt.toNat ≤ t0 + 1 + k) := by
          omega
        rw [if_neg hC'no] at hIHj
        rw [if_neg hC]
        exact hIHj

theorem getD_replicate_zero (n m : ℕ) : (List.replicate n (0 : ℚ)).getD m 0 = 0 := by
  induction n generalizing m with
  | zero => simp
  | succ n ihn => cases m <;> simp [List.replicate, ihn]

/-- C10: with lead_time ≥ 0, each release period receives the receipt of
exactly one period (the accumulation never adds twice to one index):
`release[r] = receipt[r + lead_time]` whenever `r + lead_time ≤ N`, and
`release[r] = 0` whenever `r + lead_time > N`. -/
theorem mrp_lanzamientos_offset (rbs srs : List ℚ) (inv ss : ℚ) (lt : ℤ) (lote : ℚ)
    (pol : String) (res : MRPResult) (hlt : 0 ≤ lt)
    (hok : calcular_mrp rbs inv ss srs lt lote pol = .ok res) :
    ∀ r, 1 ≤ r → r ≤ rbs.length →
      (r + lt.toNat ≤ rbs.length →
        res.lanzamientos.getD (r - 1) 0 =
          (res.filas.getD (r + lt.toNat - 1) default).recepcion) ∧
      (rbs.length < r + lt.toNat → res.lanzamientos.getD (r - 1) 0 = 0) := by
  intro r hr1 hrN
  have hloop := calcular_mrp_ok_loop rbs srs inv ss lt lote pol res hok
  have hj := mrpLoop_lanz_getD rbs (ajustarRecepciones srs rbs.length) ss lote pol lt
    rbs.length hlt rbs.length 0 inv (List.replicate rbs.length 0) res.filas
    res.lanzamientos (by simp) hloop (r - 1) (by omega)
  rw [show r - 1 + lt.toNat - 0 = r + lt.toNat - 1 from by omega] at hj
  constructor
  · intro hle
    have hC : 0 + 1 ≤ r - 1 + 1 + lt.toNat ∧ r - 1 + 1 + lt.toNat ≤ 0 + rbs.length := by
      omega
    rw [if_pos hC, getD_replicate_zero, zero_add] at hj
    exact hj
  · intro hgt
    have hCno : ¬ (0 + 1 ≤ r - 1 + 1 + lt.toNat ∧ r - 1 + 1 + lt.toNat ≤ 0 + rbs.length) := by
      omega
    rw [if_neg hCno, getD_replicate_zero] at hj
    exact hj

theorem mrp_lanzamientos_offset_testigo :
    (1 + (1 : ℤ).toNat ≤ ([800, 1200, 900, 1100] : List ℚ).length →
      ((⟨[⟨100, 100, 100⟩, ⟨1200, 1200, 100⟩, ⟨900, 900, 100⟩, ⟨850, 850, 100⟩],
          [1200, 900, 850, 0]⟩ : MRPResult)).lanzamientos.getD (1 - 1) 0 =
        (((⟨[⟨100, 100, 100⟩, ⟨1200, 1200, 100⟩, ⟨900, 900, 100⟩, ⟨850, 850, 100⟩],
            [1200, 900, 850, 0]⟩ : MRPResult)).filas.getD
          (1 + (1 : ℤ).toNat - 1) default).recepcion) ∧
    (([800, 1200, 900, 1100] : List ℚ).length < 1 + (1 : ℤ).toNat →
      ((⟨[⟨100, 100, 100⟩, ⟨1200, 1200, 100⟩, ⟨900, 900, 100⟩, ⟨850, 850, 100⟩],
          [1200, 900, 850, 0]⟩ : MRPResult)).lanzamientos.getD (1 - 1) 0 = 0) := by
  have hok : calcular_mrp [800, 1200, 900, 1100] 300 100 [500, 0, 0, 250] 1 1 "LFL" =
      .ok ⟨[⟨100, 100, 100⟩, ⟨1200, 1200, 100⟩, ⟨900, 900, 100⟩, ⟨850, 850, 100⟩],
           [1200, 900, 850, 0]⟩ := by
    norm_num [calcular_mrp, mrpLoop, recepcionPlanificada, ajustarRecepciones,
      List.range', max_def, Int.toNat, List.replicate, List.set]
  exact mrp_lanzamientos_offset [800, 1200, 900, 1100] [500, 0, 0, 250] 300 100 1 1
    "LFL" _ (by norm_num) hok 1 (by norm_num) (by norm_num)

theorem mrp_foq_multiplo_lote_testigo :
    ((((⟨[⟨7, 10, 3⟩], [10]⟩ : MRPResult)).filas.getD 0 default).neto = 0 ∧
      (((⟨[⟨7, 10, 3⟩], [10]⟩ : MRPResult)).filas.getD 0 default).recepcion = 0) ∨
    ((((⟨[⟨7, 10, 3⟩], [10]⟩ : MRPResult)).filas.getD 0 default).recepcion =
        ((⌈(((⟨[⟨7, 10, 3⟩], [10]⟩ : MRPResult)).filas.getD 0 default).neto / 5⌉ : ℤ) : ℚ)
          * 5 ∧
      ∃ m : ℤ,
        (((⟨[⟨7, 10, 3⟩], [10]⟩ : MRPResult)).filas.getD 0 default).recepcion =
          (m : ℚ) * 5) := by
  have hFL : (("FOQ" : String) = "LFL") = False := by simp
  have hc : (⌈(7 / 5 : ℚ)⌉ : ℤ) = 2 := by
    rw [Int.ceil_eq_iff] <;> norm_num
  have hok : calcular_mrp [7] 0 0 [0] 0 5 "FOQ" = .ok ⟨[⟨7, 10, 3⟩], [10]⟩ := by
    norm_num [calcular_mrp, mrpLoop, recepcionPlanificada, ajustarRecepciones,
      List.range', max_def, Int.toNat, List.replicate, List.set, hFL, hc]
  exact mrp_foq_multiplo_lote [7] [0] 0 0 0 5 ⟨[⟨7, 10, 3⟩], [10]⟩ (by norm_num) hok 0
    (by norm_num)
